import Mathlib

/-!
Shallow embedding of the IoC container and service-provider registry of
`framework/container` (container.go, contextual.go, provider.go).

Values built by factories are modelled by the inductive `Val`; factory
bodies and extender bodies are user code outside the repository, so they
are modelled by small deep-embedded languages (`FExpr`, `Ext`) whose
interpreters reproduce exactly the container interactions the source
performs (calling `Make`, panicking, producing fresh values, and — for the
lazy binding installed by `ProviderRegistry.interceptDeferred` — the whole
body of that closure).  Rebind / after-resolving callbacks and provider
`Boot` bodies are opaque user code; they are modelled as observable events
appended to a trace (`State.events`), which also records each factory
invocation so that "the factory ran exactly once" is expressible.

Go maps are modelled as association lists (`alookup` / `ainsert` /
`aremove`), Go panics as the `Res.err` result carrying the state at the
moment of the panic (a Go panic unwinds but the container object keeps the
mutations already made — in particular `runFactory`'s build-stack push is
NOT undone, faithfully to the missing `defer` in the source).
-/

namespace GoLaravel

/-- A concrete value living in the container.  `wrap` is produced by
extenders (decorators), making decoration order and multiplicity
observable; `containerRef` is the container's own self-registration. -/
inductive Val where
  | base (n : Nat)
  | wrap (tag : Nat) (v : Val)
  | containerRef
deriving DecidableEq, Repr

/-- Observable events: factory invocations, rebind / after-resolving
callback firings, and provider Register/Boot calls. -/
inductive Event where
  | factoryRun (key : String)
  | rebound (cb : Nat) (v : Val)
  | afterResolve (cb : Nat) (key : String) (v : Val)
  | registerCalled (pid : Nat)
  | bootCalled (pid : Nat)
deriving DecidableEq, Repr

/-- Deep-embedded factory bodies (`type Factory func(c *Container) any`). -/
inductive FExpr where
  | const (v : Val)
  | fresh
  | fail
  | make (k : String)
  | deferredTrigger (pid : Nat) (abs : String)
deriving DecidableEq, Repr

/-- Deep-embedded extender bodies (`type extender func(instance any, c *Container) any`):
each application wraps the value with its tag. -/
inductive Ext where
  | wrap (tag : Nat)
deriving DecidableEq, Repr

/-- Model of `binding` of container.go: factory plus singleton flag. -/
structure Binding where
  factory : FExpr
  singleton : Bool
deriving DecidableEq, Repr

/-- One registration performed by a provider's `Register` body:
`(abstract, factory, singleton flag)`, executed through `Container.bind`. -/
abbrev RegOp := String × FExpr × Bool

/-- A `ServiceProvider`: its `Provides()` list, its `IsDeferred()` flag and
the bindings its `Register` installs.  Its `Boot` body is opaque user code,
modelled as the `Event.bootCalled` trace event. -/
structure Provider where
  provides : List String
  isDeferred : Bool
  regOps : List RegOp
deriving DecidableEq, Repr

/-- First-match association-list lookup (Go map read). -/
def alookup {κ α : Type} [DecidableEq κ] : List (κ × α) → κ → Option α
  | [], _ => none
  | (k', v) :: rest, k => if k' = k then some v else alookup rest k

/-- Go map delete. -/
def aremove {κ α : Type} [DecidableEq κ] : List (κ × α) → κ → List (κ × α)
  | [], _ => []
  | (k', v) :: rest, k => if k' = k then aremove rest k else (k', v) :: aremove rest k

/-- Go map write. -/
def ainsert {κ α : Type} [DecidableEq κ] (l : List (κ × α)) (k : κ) (v : α) :
    List (κ × α) :=
  (k, v) :: aremove l k

/-- The combined state of one `Container` and the `ProviderRegistry` bound
to it, plus the fixed provider table and the instrumentation fields
(`counter` for fresh values, `events` newest-first). -/
structure State where
  bindings : List (String × Binding)
  instances : List (String × Val)
  aliases : List (String × String)
  extenders : List (String × List Ext)
  tags : List (String × List String)
  contextual : List (String × List (String × FExpr))
  reboundCallbacks : List (String × List Nat)
  afterResolving : List Nat
  buildStack : List String
  providers : List (Nat × Provider)
  registered : List Nat
  eager : List Nat
  deferredMap : List (String × Nat)
  booted : Bool
  counter : Nat
  events : List Event
deriving DecidableEq, Repr

/-- Model of `Container.canonical`: resolve an alias to its canonical key. -/
def canonical (s : State) (abstract : String) : String :=
  match alookup s.aliases abstract with
  | some target => target
  | none => abstract

/-- Model of `Container.getContextual` composed with the `make` caller lookup:
the contextual factory for `(concrete, abstract)`, or `none`. -/
def ctxLookup (s : State) (concrete abstract : String) : Option FExpr :=
  match alookup s.contextual concrete with
  | some m => alookup m abstract
  | none => none

/-- Chain application (`Container.applyExtenders`): in registration order. -/
def applyExts (exts : List Ext) (v : Val) : Val :=
  exts.foldl (fun acc e => match e with | .wrap t => Val.wrap t acc) v

/-- Model of `Container.fireRebound`: fire the callbacks registered under the
LITERAL abstract string (the source performs no alias canonicalization
on this lookup). -/
def fireRebound (s : State) (abstract : String) (v : Val) : State :=
  { s with events :=
      (((alookup s.reboundCallbacks abstract).getD []).map
        (fun cb => Event.rebound cb v)).reverse ++ s.events }

/-- Model of `Container.fireAfterResolving`: fire all after-resolving callbacks. -/
def fireAfterResolving (s : State) (key : String) (v : Val) : State :=
  { s with events :=
      (s.afterResolving.map (fun cb => Event.afterResolve cb key v)).reverse
        ++ s.events }

/-- Resolution errors.  `panicF` models a Go panic raised by a factory,
`unregistered` the `"no binding registered for [...]"` panic, `selfAlias`
the `Alias` self-alias panic, `fuel` exhaustion of the recursion bound
(a modelling artifact; the Go code has no such bound). -/
inductive Err where
  | unregistered (abstract : String)
  | panicF
  | selfAlias (abstract : String)
  | fuel
deriving DecidableEq, Repr

/-- Result of a resolution: the value and the container state after it, or
an error together with the state at the moment the panic was raised. -/
inductive Res where
  | ok (v : Val) (s : State)
  | err (e : Err) (s : State)
deriving DecidableEq, Repr

/-- Result of a mutating operation that returns no value. -/
inductive BRes where
  | ok (s : State)
  | err (e : Err) (s : State)
deriving DecidableEq, Repr

/-- State carried by a `Res` (on error: the state when the panic fired). -/
def Res.stateOf : Res → State
  | .ok _ s => s
  | .err _ s => s

/-- Whether a `Res` is an error. -/
def Res.isErr : Res → Bool
  | .ok _ _ => false
  | .err _ _ => true

/-- Model of `Container.bind` parameterized by the resolver used for the rebound
rebuild (`c.make(abstract)` in the source): delete any cached instance,
install the new binding, and — when an instance had been cached — rebuild
and fire the rebound callbacks under the literal abstract string. -/
def doBindO (mk : State → String → Res) (s : State) (abstract : String)
    (f : FExpr) (single : Bool) : BRes :=
  let key := canonical s abstract
  let wasBound := (alookup s.instances key).isSome
  let s1 := { s with instances := aremove s.instances key,
                     bindings := ainsert s.bindings key ⟨f, single⟩ }
  if wasBound then
    match mk s1 abstract with
    | .ok v s2 => .ok (fireRebound s2 abstract v)
    | .err e s2 => .err e s2
  else .ok s1

/-- Running a provider `Register` body: the sequence of `Container.bind`
calls it performs, any panic propagating. -/
def doRegOpsO (bnd : State → String → FExpr → Bool → BRes) :
    State → List RegOp → BRes
  | s, [] => .ok s
  | s, (k, f, sg) :: rest =>
    match bnd s k f sg with
    | .err e s2 => .err e s2
    | .ok s2 => doRegOpsO bnd s2 rest

/-- Interpreter for factory bodies, parameterized by the resolver and the
Register-body runner.  `deferredTrigger pid abs` is the closure installed
by `ProviderRegistry.interceptDeferred`: re-check the guard
`!r.registered[provider] || r.deferred[abs] != nil`; if it holds, run the
provider's `Register`, delete the deferred marker for `abs`, `Boot` the
provider when the registry is already booted, and finally `c.Make(abs)`. -/
def evalFactoryO (mk : State → String → Res)
    (regs : State → List RegOp → BRes) (s : State) : FExpr → Res
  | .const v => .ok v s
  | .fresh => .ok (.base s.counter) { s with counter := s.counter + 1 }
  | .fail => .err .panicF s
  | .make k => mk s k
  | .deferredTrigger pid abs =>
    let p := (alookup s.providers pid).getD ⟨[], true, []⟩
    if (! s.registered.contains pid) || (alookup s.deferredMap abs).isSome then
      let s1 := { s with events := Event.registerCalled pid :: s.events }
      match regs s1 p.regOps with
      | .err e s2 => .err e s2
      | .ok s2 =>
        let s3 := { s2 with deferredMap := aremove s2.deferredMap abs }
        let s4 := if s3.booted
          then { s3 with events := Event.bootCalled pid :: s3.events }
          else s3
        mk s4 abs
    else mk s abs

/-- Model of `Container.runFactory`: push the key, run the factory, pop ONLY on the
success path (the source pops by a plain slice assignment with no `defer`,
so a factory panic propagates with the key still on the build stack), then
apply the extender chain, cache when singleton, and fire after-resolving. -/
def runFactoryO (evalF : State → FExpr → Res) (s : State) (key : String)
    (f : FExpr) (single : Bool) : Res :=
  let s1 := { s with buildStack := s.buildStack ++ [key],
                     events := Event.factoryRun key :: s.events }
  match evalF s1 f with
  | .err e s2 => .err e s2
  | .ok v s2 =>
    let s3 := { s2 with buildStack := s2.buildStack.dropLast }
    let v2 := applyExts ((alookup s3.extenders key).getD []) v
    let s4 := if single
      then { s3 with instances := ainsert s3.instances key v2 }
      else s3
    Res.ok v2 (fireAfterResolving s4 key v2)

/-- Model of `Container.make`: canonicalize, consult the instance cache, then the
contextual table keyed by `(top of build stack, raw abstract)`, then the
binding registry; fail with `unregistered` when nothing is found. -/
def makeBody (runF : State → String → FExpr → Bool → Res) (s : State)
    (abstract : String) : Res :=
  let key := canonical s abstract
  match alookup s.instances key with
  | some v => .ok v s
  | none =>
    match (match s.buildStack.getLast? with
           | some caller => ctxLookup s caller abstract
           | none => none) with
    | some f => runF s key f false
    | none =>
      match alookup s.bindings key with
      | none => .err (.unregistered abstract) s
      | some b => runF s key b.factory b.singleton

/-- The resolver, bounded by fuel so the embedding is total; every level
of factory recursion consumes one unit. -/
def make : Nat → State → String → Res
  | 0, s, _ => .err .fuel s
  | n + 1, s, abstract =>
    makeBody (runFactoryO (evalFactoryO (make n) (doRegOpsO (doBindO (make n)))))
      s abstract

/-- Model of `Container.runFactory` as invoked from `make (n+1)`. -/
def runFactory (n : Nat) : State → String → FExpr → Bool → Res :=
  runFactoryO (evalFactoryO (make n) (doRegOpsO (doBindO (make n))))

/-- Model of `Container.bind` (the body of `Bind` / `Singleton`). -/
def doBind (n : Nat) : State → String → FExpr → Bool → BRes :=
  doBindO (make n)

/-- A provider `Register` body run against the container. -/
def doRegOps (n : Nat) : State → List RegOp → BRes :=
  doRegOpsO (doBind n)

/-- Model of `Container.Instance`: drop the binding for the canonical key, cache the
value, fire rebound callbacks under the literal abstract string. -/
def doInstanceOp (s : State) (abstract : String) (v : Val) : State :=
  let s1 := { s with bindings := aremove s.bindings (canonical s abstract) }
  let key := canonical s1 abstract
  let s2 := { s1 with instances := ainsert s1.instances key v }
  fireRebound s2 abstract v

/-- Model of `Container.Alias`: self-alias is a configuration error. -/
def doAlias (s : State) (abstract al : String) : BRes :=
  if abstract = al then .err (.selfAlias abstract) s
  else .ok { s with aliases := ainsert s.aliases al (canonical s abstract) }

/-- Model of `Container.Extend`: append the decorator; when an instance is cached,
re-apply the WHOLE extender chain to it, cache the result, and fire
rebound callbacks under the literal abstract string. -/
def doExtend (s : State) (abstract : String) (e : Ext) : State :=
  let key := canonical s abstract
  let chain := (alookup s.extenders key).getD [] ++ [e]
  let s1 := { s with extenders := ainsert s.extenders key chain }
  match alookup s1.instances key with
  | some inst =>
    let extended := applyExts chain inst
    let s2 := { s1 with instances := ainsert s1.instances key extended }
    fireRebound s2 abstract extended
  | none => s1

/-- Model of `ContextualBuilder.Give` after `When(concrete).Needs(needs)`. -/
def doGive (s : State) (concrete needs : String) (f : FExpr) : State :=
  let m := (alookup s.contextual concrete).getD []
  { s with contextual := ainsert s.contextual concrete (ainsert m needs f) }

/-- Model of `Container.Tag`. -/
def doTag (s : State) (abstracts : List String) (tag : String) : State :=
  { s with tags := ainsert s.tags tag ((alookup s.tags tag).getD [] ++ abstracts) }

/-- Model of `Container.Rebinding`: store the callback under the LITERAL abstract
string (the source performs no canonicalization here). -/
def doRebinding (s : State) (abstract : String) (cb : Nat) : State :=
  let cbs := (alookup s.reboundCallbacks abstract).getD [] ++ [cb]
  { s with reboundCallbacks := ainsert s.reboundCallbacks abstract cbs }

/-- Model of `Container.Forget`. -/
def doForget (s : State) (abstract : String) : State :=
  let key := canonical s abstract
  { s with bindings := aremove s.bindings key,
           instances := aremove s.instances key }

/-- Model of `Container.Flush`: reset the six container tables; the source does NOT
reset the rebound-callback or after-resolving observer lists. -/
def doFlush (s : State) : State :=
  { s with bindings := [], instances := [], aliases := [], extenders := [],
           tags := [], contextual := [] }

/-- Model of `ProviderRegistry.interceptDeferred`: install the lazy trigger binding
for each key the deferred provider provides, through `Container.Bind`. -/
def bindTriggers (n : Nat) (pid : Nat) : State → List String → BRes
  | s, [] => .ok s
  | s, a :: rest =>
    match doBind n s a (.deferredTrigger pid a) false with
    | .err e s2 => .err e s2
    | .ok s2 => bindTriggers n pid s2 rest

/-- Model of `ProviderRegistry.Register`: no-op for an already-registered provider;
for a deferred one, record the deferred markers and install the lazy
triggers; for an eager one, run its `Register`, append it to the eager
list, and `Boot` it at once when the registry is already booted. -/
def registryRegister (n : Nat) (s : State) (pid : Nat) : BRes :=
  if s.registered.contains pid then .ok s
  else
    let s0 := { s with registered := pid :: s.registered }
    let p := (alookup s0.providers pid).getD ⟨[], true, []⟩
    if p.isDeferred then
      let dm := p.provides.foldl (fun m a => ainsert m a pid) s0.deferredMap
      let s1 := { s0 with deferredMap := dm }
      bindTriggers n pid s1 p.provides
    else
      let s2 := { s0 with events := Event.registerCalled pid :: s0.events }
      match doRegOps n s2 p.regOps with
      | .err e s3 => .err e s3
      | .ok s3 =>
        let s4 := { s3 with eager := s3.eager ++ [pid] }
        .ok (if s4.booted
          then { s4 with events := Event.bootCalled pid :: s4.events }
          else s4)

/-- Model of `ProviderRegistry.Boot`: idempotent; on the first call, mark booted and
call `Boot` on every eager provider in registration order. -/
def registryBoot (s : State) : State :=
  if s.booted then s
  else
    { s with booted := true,
             events := (s.eager.map Event.bootCalled).reverse ++ s.events }

/-- A container-plus-registry with everything empty. -/
def emptyState : State :=
  ⟨[], [], [], [], [], [], [], [], [], [], [], [], [], false, 0, []⟩

/-- Model of `container.New`: empty container that registers itself under
`"container"` via `Instance`. -/
def initState : State :=
  doInstanceOp emptyState "container" Val.containerRef

/-- Occurrence count of an event in a trace. -/
def countE (e : Event) : List Event → Nat
  | [] => 0
  | x :: xs => (if x = e then 1 else 0) + countE e xs

/-! ### Concrete container states used by the claim theorems and witnesses -/

/-- The container after `Bind("boom", factory-that-panics)` on a fresh
container (the `Bind` itself succeeds; no instance was cached, so no
rebound rebuild runs). -/
def c2State : State :=
  match doBind 2 initState "boom" FExpr.fail false with
  | .ok s => s
  | .err _ s => s

/-- Fresh container with `Singleton("k", const 5)` registered. -/
def c3State : State :=
  match doBind 2 initState "k" (FExpr.const (Val.base 5)) true with
  | .ok s => s
  | .err _ s => s

/-- Fresh container with `Singleton("k", const 0)` resolved once, then two
extenders added (tags 1 and 2) after the instance was cached. -/
def c5Extended : State :=
  let s0 := match doBind 2 initState "k" (FExpr.const (Val.base 0)) true with
    | .ok s => s
    | .err _ s => s
  let s1 := (make 2 s0 "k").stateOf
  doExtend (doExtend s1 "k" (.wrap 1)) "k" (.wrap 2)

/-- Fresh container with `Singleton("k", const 4)` registered, unresolved. -/
def c5T : State :=
  match doBind 1 initState "k" (FExpr.const (Val.base 4)) true with
  | .ok s => s
  | .err _ s => s

/-- A factory body that does not itself resolve container keys (so "the
factory ran exactly once" is not muddied by recursive self-resolution). -/
def FExpr.leaf : FExpr → Bool
  | .const _ => true
  | .fresh => true
  | .fail => true
  | .make _ => false
  | .deferredTrigger _ _ => false

/-- Fresh container with `Singleton("s", fresh-counter-factory)`. -/
def c7S : State :=
  match doBind 1 initState "s" FExpr.fresh true with
  | .ok s => s
  | .err _ s => s

/-- The container after the first `Make("s")` on `c7S`. -/
def c7S' : State := (make 1 c7S "s").stateOf

/-- Mid-build container: `"Consumer"` is on the build stack (it is being
built) and a contextual entry `("Consumer","Dep") -> const 42` is
installed; `"Dep"` has no binding, no instance, no alias.  This state is
reached inside `Make("Consumer")` after
`When("Consumer").Needs("Dep").GiveValue(42)` and
`Bind("Consumer", factory-that-Makes-"Dep")`. -/
def c8Mid : State :=
  { initState with
      contextual := [("Consumer", [("Dep", .const (Val.base 42))])],
      buildStack := ["Consumer"] }

/-- In-build container for the spec scenario: `"Consumer"` is being built,
`When("Consumer").Needs("Dep").GiveValue(42)` is installed, and `"Dep"`
has a default singleton binding producing `7`. -/
def c6S : State :=
  { initState with
      bindings := [("Dep", ⟨.const (Val.base 7), true⟩)],
      contextual := [("Consumer", [("Dep", .const (Val.base 42))])],
      buildStack := ["Consumer"] }

/-- The same container outside any build (empty build stack). -/
def c6T : State := { c6S with buildStack := [] }

/-- A container with a cached instance `base 9` for `"Dep"`. -/
def c6U : State := doInstanceOp initState "Dep" (Val.base 9)

/-- Not-yet-booted registry with one eager provider (pid 4) recorded. -/
def c9S : State := { initState with eager := [4] }

/-- Already-booted registry whose provider table holds an eager provider
(pid 4) that is not yet registered. -/
def c9T : State :=
  { initState with
      booted := true,
      providers := [(4, ⟨["x"], false, [("x", FExpr.const (Val.base 1), true)]⟩)] }

/-- Container with alias `"a" -> "k"` and a cached instance for `"k"`. -/
def c10S : State :=
  doInstanceOp
    (match doAlias initState "k" "a" with | .ok s => s | .err _ s => s)
    "k" (Val.base 1)

/-- State extraction from a `BRes`. -/
def BRes.stateOf : BRes → State
  | .ok s => s
  | .err _ s => s

/-- Concrete deferred-provider scenario: provider 7 provides `"a"`, `"b"`
and its Register binds both as singletons; the registry is booted. -/
def c1S0 : State :=
  { initState with
      providers := [(7, ⟨["a", "b"], true,
        [("a", .const (Val.base 1), true), ("b", .const (Val.base 2), true)]⟩)],
      booted := true }

/-- After registering deferred provider 7. -/
def c1S1 : State := (registryRegister 1 c1S0 7).stateOf

/-- After the first `Make("a")` (which triggers the real Register). -/
def c1SA : State := (make 2 c1S1 "a").stateOf

/-- After the subsequent independent `Make("b")`. -/
def c1SB : State := (make 2 c1SA "b").stateOf

/-! ### Association-list and trace lemmas -/

theorem alookup_aremove_self {κ α : Type} [DecidableEq κ] (l : List (κ × α)) (k : κ) :
    alookup (aremove l k) k = none := by
  induction l with
  | nil => rfl
  | cons p rest ih =>
    obtain ⟨k', v⟩ := p
    by_cases h : k' = k
    · simpa [aremove, h] using ih
    · simpa [aremove, alookup, h] using ih

theorem alookup_aremove_ne {κ α : Type} [DecidableEq κ] (l : List (κ × α))
    (k' k : κ) (h : k' ≠ k) : alookup (aremove l k') k = alookup l k := by
  induction l with
  | nil => rfl
  | cons p rest ih =>
    obtain ⟨k'', v⟩ := p
    by_cases h2 : k'' = k'
    · subst h2
      simpa [aremove, alookup, h] using ih
    · simp [aremove, alookup, h2, ih]

theorem alookup_ainsert_self {κ α : Type} [DecidableEq κ] (l : List (κ × α))
    (k : κ) (v : α) : alookup (ainsert l k v) k = some v := by
  simp [ainsert, alookup]

theorem alookup_ainsert_ne {κ α : Type} [DecidableEq κ] (l : List (κ × α))
    (k' k : κ) (v : α) (h : k' ≠ k) :
    alookup (ainsert l k' v) k = alookup l k := by
  simp [ainsert, alookup, h, alookup_aremove_ne l k' k h]

theorem countE_append (e : Event) (l1 l2 : List Event) :
    countE e (l1 ++ l2) = countE e l1 + countE e l2 := by
  induction l1 with
  | nil => simp [countE]
  | cons x xs ih => simp [countE, ih]; omega

theorem countE_reverse (e : Event) (l : List Event) :
    countE e l.reverse = countE e l := by
  induction l with
  | nil => rfl
  | cons x xs ih => simp [countE, List.reverse_cons, countE_append, ih]; omega

theorem countE_eq_zero (e : Event) (l : List Event) (h : ∀ x ∈ l, x ≠ e) :
    countE e l = 0 := by
  induction l with
  | nil => rfl
  | cons x xs ih =>
    have hx : x ≠ e := h x (by simp)
    simp [countE, hx]
    exact ih (fun y hy => h y (by simp [hy]))

/-! ### C2: build-stack unwinding when a factory panics -/

/-- C2: the claim says the key pushed by `Make` is popped on every exit
path, including a factory panic.  The source pops by a plain slice
assignment after the factory call, with no `defer`, so when the factory
panics the key stays on the build stack: starting from an empty build
stack, `Make("boom")` propagates the panic and leaves `["boom"]` on the
build stack.  This refutes the claim against the code; the spec's stated
intent (§3 BuildStack, §7) is that the stack be restored, so the code is
the bug. -/
theorem c2_panic_leaves_key_on_build_stack :
    c2State.buildStack = [] ∧
    (make 2 c2State "boom").isErr = true ∧
    (make 2 c2State "boom").stateOf.buildStack = ["boom"] := by
  decide

/-! ### C3: binding / instance mutual exclusion -/

/-- C3 counterexample: after `Singleton("k", f)` and one `Make("k")`, the
container holds BOTH the binding and the cached instance for `"k"`
simultaneously — singleton resolution caches the instance without removing
the binding, so the claimed mutual exclusion fails. -/
theorem c3_counterexample_singleton_coexistence :
    (alookup (make 2 c3State "k").stateOf.bindings "k").isSome = true ∧
    (alookup (make 2 c3State "k").stateOf.instances "k").isSome = true := by
  decide

/-- C3 (amended): registering an Instance removes the Binding for the
canonical key; registering a new (transient) Binding over a cached
Instance evicts that Instance; but singleton resolution by `Make` caches
the instance while keeping the Binding registered, so a Binding and an
Instance for the same key can coexist. -/
theorem c3_amended (s t u : State) (k : String) (v w : Val) (n : Nat)
    (hsal : alookup s.aliases k = none)
    (htal : alookup t.aliases k = none) (htbs : t.buildStack = [])
    (hti : alookup t.instances k = some w)
    (hual : alookup u.aliases k = none) (hubs : u.buildStack = [])
    (hui : alookup u.instances k = none)
    (hub : alookup u.bindings k = some ⟨.const v, true⟩) :
    (alookup (doInstanceOp s k v).bindings k = none ∧
     alookup (doInstanceOp s k v).instances k = some v)
    ∧ (∃ t', doBind (n + 1) t k (.const v) false = .ok t' ∧
        alookup t'.instances k = none ∧
        alookup t'.bindings k = some ⟨.const v, false⟩)
    ∧ (∃ v' u', make (n + 1) u k = .ok v' u' ∧
        alookup u'.bindings k = some ⟨.const v, true⟩ ∧
        alookup u'.instances k = some v') := by
  refine ⟨⟨?_, ?_⟩, ?_, ?_⟩
  · simp [doInstanceOp, canonical, hsal, fireRebound, alookup_aremove_self]
  · simp [doInstanceOp, canonical, hsal, fireRebound, alookup_ainsert_self]
  · simp only [doBind, doBindO, canonical, htal, hti, Option.isSome_some,
      if_true, make, makeBody, alookup_aremove_self, alookup_ainsert_self,
      htbs, List.getLast?_nil, runFactoryO, evalFactoryO, List.nil_append,
      List.dropLast_single, fireAfterResolving, fireRebound]
    refine ⟨_, rfl, ?_, ?_⟩
    · simp [alookup_aremove_self]
    · simp [alookup_ainsert_self]
  · simp only [make, makeBody, canonical, hual, hui, hubs,
      List.getLast?_nil, hub, runFactoryO, evalFactoryO, List.nil_append,
      List.dropLast_single, fireAfterResolving, if_true]
    refine ⟨_, _, rfl, ?_, ?_⟩
    · simp [hub]
    · simp [alookup_ainsert_self]

/-- Witness for `c3_amended` at a concrete container: `t` has a cached
instance for `"k"`, `u` has a singleton binding for `"k"`. -/
theorem c3_amended_witness :
    (alookup (doInstanceOp initState "k" (Val.base 5)).bindings "k" = none ∧
     alookup (doInstanceOp initState "k" (Val.base 5)).instances "k"
       = some (Val.base 5))
    ∧ (∃ t', doBind 1 (doInstanceOp initState "k" (Val.base 7)) "k"
          (.const (Val.base 5)) false = .ok t' ∧
        alookup t'.instances "k" = none ∧
        alookup t'.bindings "k" = some ⟨.const (Val.base 5), false⟩)
    ∧ (∃ v' u', make 1 c3State "k" = .ok v' u' ∧
        alookup u'.bindings "k" = some ⟨.const (Val.base 5), true⟩ ∧
        alookup u'.instances "k" = some v') := by
  have h := c3_amended initState (doInstanceOp initState "k" (Val.base 7))
    c3State "k" (Val.base 5) (Val.base 7) 0
    (by decide) (by decide) (by decide) (by decide) (by decide) (by decide)
    (by decide) (by decide)
  exact h

/-! ### C4: what Flush resets -/

/-- C4 counterexample: on a fresh container the self-registration
`"container"` is a cached instance; after `Flush` it is gone and
`Make("container")` fails — the self-registration does NOT remain
resolvable.  Moreover `Flush` does not reset the rebound-callback observer
list: a callback registered before `Flush` is still stored afterwards. -/
theorem c4_counterexample_flush :
    alookup initState.instances "container" = some Val.containerRef ∧
    make 2 (doFlush initState) "container"
      = Res.err (.unregistered "container") (doFlush initState) ∧
    (doFlush (doRebinding initState "x" 0)).reboundCallbacks = [("x", [0])] := by
  decide

/-- C4 (amended): `Flush` resets the bindings, instances, aliases,
extenders, tags and contextual tables — including the container's
self-registration, so afterwards no key at all (in particular
`"container"`) is resolvable — while the rebound-callback and
after-resolving observer lists are left untouched. -/
theorem c4_flush_amended (s : State) (n : Nat) (k : String) :
    (doFlush s).bindings = [] ∧ (doFlush s).instances = [] ∧
    (doFlush s).aliases = [] ∧ (doFlush s).extenders = [] ∧
    (doFlush s).tags = [] ∧ (doFlush s).contextual = [] ∧
    (doFlush s).reboundCallbacks = s.reboundCallbacks ∧
    (doFlush s).afterResolving = s.afterResolving ∧
    make (n + 1) (doFlush s) k = Res.err (.unregistered k) (doFlush s) := by
  refine ⟨rfl, rfl, rfl, rfl, rfl, rfl, rfl, rfl, ?_⟩
  cases h : s.buildStack.getLast? with
  | none => simp [make, makeBody, canonical, doFlush, alookup, ctxLookup, h]
  | some caller => simp [make, makeBody, canonical, doFlush, alookup, ctxLookup, h]

theorem countE_map_ne {α : Type} (e : Event) (f : α → Event) (l : List α)
    (h : ∀ a, f a ≠ e) : countE e (l.map f) = 0 := by
  apply countE_eq_zero
  intro x hx
  obtain ⟨a, _, rfl⟩ := List.mem_map.mp hx
  exact h a

/-! ### C5: Extend on an already-cached singleton -/

/-- C5 counterexample: after `Singleton("k", const 0)`, `Make("k")`
(caches `base 0`), `Extend("k", wrap 1)` (cache becomes `wrap 1 (base 0)`)
and `Extend("k", wrap 2)`, the next `Make("k")` returns
`wrap 2 (wrap 1 (wrap 1 (base 0)))` — the second `Extend` re-applied the
FIRST extender to the already-extended cached value, not just the new
decorator, so the claimed "applying the new decorator … exactly once each"
fails (that would give `wrap 2 (wrap 1 (base 0))`). -/
theorem c5_counterexample_extend_reapplies_chain :
    make 2 c5Extended "k"
      = Res.ok (Val.wrap 2 (Val.wrap 1 (Val.wrap 1 (Val.base 0)))) c5Extended ∧
    Val.wrap 2 (Val.wrap 1 (Val.wrap 1 (Val.base 0)))
      ≠ Val.wrap 2 (Val.wrap 1 (Val.base 0)) := by
  decide

/-- C5 (amended): when `key` already has a cached instance,
`Extend(key, d)` immediately re-applies the ENTIRE extender chain — the
previously registered decorators followed by `d` — to the cached instance,
stores the result in place, and fires a rebind notification; the next
`Make(key)` returns that value with no state change and hence no fresh
factory run.  On a freshly built value the chain is applied exactly once,
in registration order, with exactly one factory run. -/
theorem c5_extend_amended (s t : State) (k : String) (v w : Val) (e : Ext)
    (n : Nat) (b : Bool)
    (hsal : alookup s.aliases k = none)
    (hsi : alookup s.instances k = some v)
    (htal : alookup t.aliases k = none) (htbs : t.buildStack = [])
    (hti : alookup t.instances k = none)
    (htb : alookup t.bindings k = some ⟨.const w, b⟩) :
    (alookup (doExtend s k e).instances k
       = some (applyExts ((alookup s.extenders k).getD [] ++ [e]) v))
    ∧ (alookup (doExtend s k e).extenders k
       = some ((alookup s.extenders k).getD [] ++ [e]))
    ∧ ((doExtend s k e).events
       = (((alookup s.reboundCallbacks k).getD []).map
           (fun cb => Event.rebound cb
             (applyExts ((alookup s.extenders k).getD [] ++ [e]) v))).reverse
         ++ s.events)
    ∧ (make (n + 1) (doExtend s k e) k
       = Res.ok (applyExts ((alookup s.extenders k).getD [] ++ [e]) v)
           (doExtend s k e))
    ∧ (∃ t', make (n + 1) t k
         = Res.ok (applyExts ((alookup t.extenders k).getD []) w) t' ∧
       countE (.factoryRun k) t'.events = countE (.factoryRun k) t.events + 1) := by
  refine ⟨?_, ?_, ?_, ?_, ?_⟩
  · simp [doExtend, canonical, hsal, hsi, fireRebound, alookup_ainsert_self]
  · simp [doExtend, canonical, hsal, hsi, fireRebound, alookup_ainsert_self]
  · simp [doExtend, canonical, hsal, hsi, fireRebound]
  · simp [make, makeBody, doExtend, canonical, hsal, hsi, fireRebound,
      alookup_ainsert_self]
  · simp only [make, makeBody, canonical, htal, hti, htbs, List.getLast?_nil,
      htb, runFactoryO, evalFactoryO, List.nil_append, List.dropLast_single,
      fireAfterResolving]
    refine ⟨_, rfl, ?_⟩
    cases b <;>
        simp [countE_append, countE_reverse, countE, fireAfterResolving,
          countE_map_ne] <;>
      omega

/-- Witness for `c5_extend_amended`: an instance `base 3` cached for
`"k"`, extended by `wrap 9`; next `Make` returns the re-wrapped cache. -/
theorem c5_extend_amended_witness :
    make 1 (doExtend (doInstanceOp initState "k" (Val.base 3)) "k"
        (Ext.wrap 9)) "k"
      = Res.ok (applyExts
          ((alookup (doInstanceOp initState "k" (Val.base 3)).extenders
            "k").getD [] ++ [Ext.wrap 9]) (Val.base 3))
          (doExtend (doInstanceOp initState "k" (Val.base 3)) "k"
            (Ext.wrap 9)) :=
  (c5_extend_amended (doInstanceOp initState "k" (Val.base 3)) c5T "k"
    (Val.base 3) (Val.base 4) (Ext.wrap 9) 0 true
    (by decide) (by decide) (by decide) (by decide) (by decide)
    (by decide)).2.2.2.1

/-! ### C7: singleton resolution is cached -/

/-- C7: for a key bound as a singleton whose factory succeeds, the first
`Make` runs the factory exactly once and caches the resulting value; a
second `Make` (with any fuel) returns exactly the same value and leaves
the state untouched — in particular it does not invoke the factory
again. -/
theorem c7_singleton_make_twice (s s' : State) (k : String) (f : FExpr)
    (v : Val) (n : Nat)
    (hal : alookup s.aliases k = none)
    (hbs : s.buildStack = [])
    (hi : alookup s.instances k = none)
    (hb : alookup s.bindings k = some ⟨f, true⟩)
    (hleaf : f.leaf = true)
    (hmk : make (n + 1) s k = Res.ok v s') :
    alookup s'.instances k = some v
    ∧ countE (.factoryRun k) s'.events = countE (.factoryRun k) s.events + 1
    ∧ ∀ m, make (m + 1) s' k = Res.ok v s' := by
  cases f with
  | make _ => simp [FExpr.leaf] at hleaf
  | deferredTrigger _ _ => simp [FExpr.leaf] at hleaf
  | fail =>
    simp only [make, makeBody, canonical, hal, hi, hbs, List.getLast?_nil, hb,
      runFactoryO, evalFactoryO] at hmk
    exact absurd hmk (by simp)
  | const w =>
    simp only [make, makeBody, canonical, hal, hi, hbs, List.getLast?_nil, hb,
      runFactoryO, evalFactoryO, List.nil_append, List.dropLast_single,
      fireAfterResolving, if_true, Res.ok.injEq] at hmk
    obtain ⟨hv, hs⟩ := hmk
    subst hv hs
    refine ⟨?_, ?_, ?_⟩
    · simp [alookup_ainsert_self]
    · simp [countE_append, countE_reverse, countE, countE_map_ne]
      omega
    · intro m
      simp [make, makeBody, canonical, hal, alookup_ainsert_self]
  | fresh =>
    simp only [make, makeBody, canonical, hal, hi, hbs, List.getLast?_nil, hb,
      runFactoryO, evalFactoryO, List.nil_append, List.dropLast_single,
      fireAfterResolving, if_true, Res.ok.injEq] at hmk
    obtain ⟨hv, hs⟩ := hmk
    subst hv hs
    refine ⟨?_, ?_, ?_⟩
    · simp [alookup_ainsert_self]
    · simp [countE_append, countE_reverse, countE, countE_map_ne]
      omega
    · intro m
      simp [make, makeBody, canonical, hal, alookup_ainsert_self]

/-- Witness for `c7_singleton_make_twice` on a concrete container. -/
theorem c7_singleton_make_twice_witness :
    alookup c7S'.instances "s" = some (Val.base 0)
    ∧ countE (.factoryRun "s") c7S'.events
        = countE (.factoryRun "s") c7S.events + 1
    ∧ make 5 c7S' "s" = Res.ok (Val.base 0) c7S' := by
  have h := c7_singleton_make_twice c7S c7S' "s" FExpr.fresh (Val.base 0) 0
    (by decide) (by decide) (by decide) (by decide) (by decide) (by decide)
  exact ⟨h.1, h.2.1, h.2.2 4⟩

/-! ### C8: when Make fails with UnregisteredAbstract -/

/-- C8 counterexample: `Make("Dep")` with neither a Binding nor a cached
Instance for canonical `"Dep"` does NOT fail — the contextual entry for
the in-flight consumer is used instead and `42` is returned.  This refutes
the claimed "fails … exactly when" equivalence. -/
theorem c8_counterexample_contextual_preempts :
    alookup c8Mid.bindings "Dep" = none ∧
    alookup c8Mid.instances "Dep" = none ∧
    alookup c8Mid.aliases "Dep" = none ∧
    (make 2 c8Mid "Dep").isErr = false ∧
    make 2 c8Mid "Dep"
      = Res.ok (Val.base 42)
          (fireAfterResolving
            { c8Mid with buildStack := ["Consumer"],
                         events := Event.factoryRun "Dep" :: c8Mid.events }
            "Dep" (Val.base 42)) := by
  decide

/-- C8 (amended): `Make(key)` fails with an `UnregisteredAbstract` error
naming `key` when, after canonicalizing through the alias table, there is
no cached Instance, no applicable contextual entry for the current
top-of-build-stack consumer, and no Binding; the failure is a hard error
propagated to the caller with the container state unchanged — never a
silently returned default value.  When a cached Instance exists, `Make`
returns it and never fails. -/
theorem c8_unregistered_amended (s t : State) (k k' : String) (v : Val)
    (n m : Nat)
    (hti : alookup t.instances (canonical t k) = none)
    (htc : (match t.buildStack.getLast? with
            | some caller => ctxLookup t caller k
            | none => none) = none)
    (htb : alookup t.bindings (canonical t k) = none)
    (hsi : alookup s.instances (canonical s k') = some v) :
    make (n + 1) t k = Res.err (.unregistered k) t
    ∧ make (m + 1) s k' = Res.ok v s := by
  constructor
  · simp only [make, makeBody, hti, htc, htb]
  · simp only [make, makeBody, hsi]

/-- Witness for `c8_unregistered_amended`: on a fresh container,
`Make("nope")` fails hard with `UnregisteredAbstract` and
`Make("container")` returns the cached self-registration. -/
theorem c8_unregistered_amended_witness :
    make 1 initState "nope" = Res.err (.unregistered "nope") initState
    ∧ make 1 initState "container" = Res.ok Val.containerRef initState :=
  c8_unregistered_amended initState initState "nope" "container"
    Val.containerRef 0 0 (by decide) (by decide) (by decide) (by decide)

/-! ### C6: contextual bindings -/

/-- C6: during `Make(needed)`, when the instance cache has no entry for
the canonical key, the consumer on top of the Build Stack has a contextual
entry for `needed`, the contextual factory is used in place of the
registered Binding and is run as a transient (`singleton = false`), so its
result is not cached even though the registered Binding is a singleton;
the registered Binding itself stays untouched.  A `Make(needed)` whose
build stack is empty, or whose top-of-stack consumer has no contextual
entry, resolves through the registered Binding; and a cached Instance
short-circuits resolution before any contextual lookup. -/
theorem c6_contextual (s t u : State) (consumer other needed : String)
    (v v0 : Val) (g : FExpr) (b : Binding) (n : Nat)
    (hsi : alookup s.instances (canonical s needed) = none)
    (hstop : s.buildStack.getLast? = some consumer)
    (hsc : ctxLookup s consumer needed = some (.const v))
    (hsb : alookup s.bindings (canonical s needed) = some ⟨g, true⟩)
    (hti : alookup t.instances (canonical t needed) = none)
    (htc : t.buildStack = [] ∨
      (t.buildStack.getLast? = some other ∧ ctxLookup t other needed = none))
    (htb : alookup t.bindings (canonical t needed) = some b)
    (hui : alookup u.instances (canonical u needed) = some v0) :
    (make (n + 1) s needed
       = runFactory n s (canonical s needed) (.const v) false)
    ∧ (∃ s', make (n + 1) s needed
         = Res.ok (applyExts
             ((alookup s.extenders (canonical s needed)).getD []) v) s'
       ∧ alookup s'.instances (canonical s needed) = none
       ∧ alookup s'.bindings (canonical s needed) = some ⟨g, true⟩)
    ∧ (make (n + 1) t needed
       = runFactory n t (canonical t needed) b.factory b.singleton)
    ∧ (make (n + 1) u needed = Res.ok v0 u) := by
  refine ⟨?_, ?_, ?_, ?_⟩
  · simp only [make, makeBody, hsi, hstop, hsc, runFactory]
  · simp only [make, makeBody, hsi, hstop, hsc, runFactoryO, evalFactoryO,
      List.dropLast_concat, fireAfterResolving]
    exact ⟨_, rfl, by simpa using hsi, by simpa using hsb⟩
  · rcases htc with hbs | ⟨h1, h2⟩
    · simp only [make, makeBody, hti, hbs, List.getLast?_nil, htb, runFactory]
    · simp only [make, makeBody, hti, h1, h2, htb, runFactory]
  · simp only [make, makeBody, hui]

/-- Witness for `c6_contextual` on the spec scenario: while `"Consumer"`
is being built, `Make("Dep")` observes the contextual `42` and does not
cache it (the singleton binding for `"Dep"` stays); with a cached instance
the cache wins. -/
theorem c6_contextual_witness :
    (∃ s', make 1 c6S "Dep"
        = Res.ok (applyExts ((alookup c6S.extenders "Dep").getD [])
            (Val.base 42)) s'
      ∧ alookup s'.instances "Dep" = none
      ∧ alookup s'.bindings "Dep" = some ⟨.const (Val.base 7), true⟩)
    ∧ make 1 c6U "Dep" = Res.ok (Val.base 9) c6U := by
  have h := c6_contextual c6S c6T c6U "Consumer" "Other" "Dep"
    (Val.base 42) (Val.base 9) (.const (Val.base 7))
    ⟨.const (Val.base 7), true⟩ 0 (by decide) (by decide) (by decide)
    (by decide) (by decide) (by decide) (by decide) (by decide)
  exact ⟨h.2.1, h.2.2.2⟩

/-! ### C9: Provider Registry Boot -/

theorem countE_map_bootCalled (pid : Nat) (l : List Nat) :
    countE (.bootCalled pid) (l.map Event.bootCalled) = l.count pid := by
  induction l with
  | nil => rfl
  | cons x xs ih =>
    by_cases h : x = pid
    · simp [countE, h, ih, List.count_cons]
      omega
    · simp [countE, h, ih, List.count_cons]

/-- C9: on a not-yet-booted registry, `Boot` marks it booted and fires
each eager provider's `Boot` once, in eager-list (registration) order; a
provider occurring once in the eager list is booted exactly once.  `Boot`
is idempotent: `Boot` after `Boot` changes nothing, so no provider `Boot`
runs on the second call.  An eager provider registered while the registry
is already booted has its `Register` run and its `Boot` fired immediately,
exactly once. -/
theorem c9_boot (s t : State) (pid : Nat) (ps : List String) (k0 : String)
    (f0 : FExpr) (sg0 : Bool) (n : Nat)
    (hs0 : s.booted = false)
    (hcnt : s.eager.count pid = 1)
    (ht : t.booted = true)
    (htr : t.registered.contains pid = false)
    (htp : alookup t.providers pid = some ⟨ps, false, [(k0, f0, sg0)]⟩)
    (hta : alookup t.aliases k0 = none)
    (hti : alookup t.instances k0 = none) :
    (registryBoot s
       = { s with booted := true,
                  events := (s.eager.map Event.bootCalled).reverse
                              ++ s.events })
    ∧ countE (.bootCalled pid) (registryBoot s).events
        = countE (.bootCalled pid) s.events + 1
    ∧ (∀ u : State, registryBoot (registryBoot u) = registryBoot u)
    ∧ (∃ t', registryRegister n t pid = .ok t'
        ∧ t'.events
            = Event.bootCalled pid :: Event.registerCalled pid :: t.events
        ∧ t'.eager = t.eager ++ [pid]
        ∧ countE (.bootCalled pid) t'.events
            = countE (.bootCalled pid) t.events + 1) := by
  refine ⟨?_, ?_, ?_, ?_⟩
  · simp [registryBoot, hs0]
  · simp [registryBoot, hs0, countE_append, countE_reverse,
      countE_map_bootCalled, hcnt]
    omega
  · intro u
    by_cases h : u.booted
    · simp [registryBoot, h]
    · simp [registryBoot, h]
  · simp only [registryRegister, htr, Bool.false_eq_true, if_false, htp,
      Option.getD_some, doRegOps, doRegOpsO, doBind, doBindO, canonical,
      hta, hti, Option.isSome_none, Bool.false_eq_true, if_false, ht,
      if_true]
    refine ⟨_, rfl, rfl, rfl, ?_⟩
    simp [countE]
    omega

/-- Witness for `c9_boot` on concrete registries. -/
theorem c9_boot_witness :
    countE (.bootCalled 4) (registryBoot c9S).events
        = countE (.bootCalled 4) c9S.events + 1
    ∧ (∃ t', registryRegister 1 c9T 4 = .ok t'
        ∧ t'.events
            = Event.bootCalled 4 :: Event.registerCalled 4 :: c9T.events
        ∧ t'.eager = c9T.eager ++ [4]
        ∧ countE (.bootCalled 4) t'.events
            = countE (.bootCalled 4) c9T.events + 1) := by
  have h := c9_boot c9S c9T 4 ["x"] "x" (FExpr.const (Val.base 1)) true 1
    (by decide) (by decide) (by decide) (by decide) (by decide) (by decide)
    (by decide)
  exact ⟨h.2.1, h.2.2.2⟩

/-! ### C10: rebind callbacks are keyed by literal strings -/

theorem rebound_not_in_fire (cbs : List Nat) (cb : Nat) (v u : Val)
    (hc : cb ∉ cbs) :
    Event.rebound cb u ∉ (cbs.map (fun c0 => Event.rebound c0 v)).reverse := by
  simp only [List.mem_reverse, List.mem_map, not_exists]
  rintro c0 ⟨hc0, heq⟩
  rw [Event.rebound.injEq] at heq
  obtain ⟨rfl, rfl⟩ := heq
  exact hc hc0

theorem rebound_not_in_afterResolve (l : List Nat) (key : String)
    (w : Val) (cb : Nat) (u : Val) :
    Event.rebound cb u
      ∉ (l.map (fun c0 => Event.afterResolve c0 key w)).reverse := by
  simp

/-- C10: `Rebinding(abstract, cb)` stores `cb` under the literal abstract
string, and rebind notifications fired by `Instance` / `bind` / `Extend`
look up callbacks by the literal string passed to that mutating call — no
alias canonicalization happens on either side.  Hence with `a` an alias of
canonical `k` (`a ≠ k`): a callback registered under `a` never fires when
`k` is re-instanced, re-bound or extended under the name `k`, and a
callback registered under `k` never fires when the mutation is performed
under the name `a` (even though `Instance(a, v)` writes the instance under
the canonical key `k`). -/
theorem c10_rebinding_literal (s : State) (a k : String) (cb cb2 : Nat)
    (v w : Val) (e : Ext) (n : Nat)
    (hak : a ≠ k)
    (halias : alookup s.aliases a = some k)
    (hkal : alookup s.aliases k = none)
    (hcbk : cb ∉ (alookup s.reboundCallbacks k).getD [])
    (hcb2a : cb2 ∉ (alookup s.reboundCallbacks a).getD [])
    (hne : cb ≠ cb2)
    (hik : alookup s.instances k = some w)
    (hsb : s.buildStack = []) :
    (alookup (doRebinding (doRebinding s a cb) k cb2).reboundCallbacks a
       = some ((alookup s.reboundCallbacks a).getD [] ++ [cb])
     ∧ alookup (doRebinding (doRebinding s a cb) k cb2).reboundCallbacks k
       = some ((alookup s.reboundCallbacks k).getD [] ++ [cb2]))
    ∧ ((doInstanceOp (doRebinding (doRebinding s a cb) k cb2) k v).events
       = (((alookup s.reboundCallbacks k).getD [] ++ [cb2]).map
           (fun c0 => Event.rebound c0 v)).reverse ++ s.events
     ∧ ∀ u, Event.rebound cb u
         ∈ (doInstanceOp (doRebinding (doRebinding s a cb) k cb2) k v).events
         → Event.rebound cb u ∈ s.events)
    ∧ (∀ u, Event.rebound cb2 u
         ∈ (doInstanceOp (doRebinding (doRebinding s a cb) k cb2) a v).events
         → Event.rebound cb2 u ∈ s.events)
    ∧ (∀ u, Event.rebound cb u
         ∈ (doExtend (doRebinding (doRebinding s a cb) k cb2) k e).events
         → Event.rebound cb u ∈ s.events)
    ∧ (∃ s2, doBind (n + 1) (doRebinding (doRebinding s a cb) k cb2) k
          (.const v) false = .ok s2
       ∧ ∀ u, Event.rebound cb u ∈ s2.events → Event.rebound cb u ∈ s.events) := by
  have hcbK : cb ∉ (alookup s.reboundCallbacks k).getD [] ++ [cb2] := by
    simp [hcbk, hne]
  have hcb2A : cb2 ∉ (alookup s.reboundCallbacks a).getD [] ++ [cb] := by
    simp [hcb2a, Ne.symm hne]
  refine ⟨⟨?_, ?_⟩, ⟨?_, ?_⟩, ?_, ?_, ?_⟩
  · simp [doRebinding, alookup_ainsert_self, alookup_ainsert_ne, Ne.symm hak]
  · simp [doRebinding, alookup_ainsert_self, alookup_ainsert_ne, hak]
  · simp [doInstanceOp, doRebinding, canonical, hkal, fireRebound,
      alookup_ainsert_self, alookup_ainsert_ne, hak]
  · intro u hmem
    simp [doInstanceOp, doRebinding, canonical, hkal, fireRebound,
      alookup_ainsert_self, alookup_ainsert_ne, hak] at hmem
    rcases hmem with ⟨h1, -⟩ | ⟨c0, hc0, rfl, -⟩ | h3
    · exact absurd h1 hne
    · exact absurd hc0 hcbk
    · exact h3
  · intro u hmem
    simp [doInstanceOp, doRebinding, canonical, halias, fireRebound,
      alookup_ainsert_self, alookup_ainsert_ne, hak, Ne.symm hak] at hmem
    rcases hmem with ⟨h1, -⟩ | ⟨c0, hc0, rfl, -⟩ | h3
    · exact absurd h1.symm hne
    · exact absurd hc0 hcb2a
    · exact h3
  · intro u hmem
    simp [doExtend, doRebinding, canonical, hkal, fireRebound, hik,
      alookup_ainsert_self, alookup_ainsert_ne, hak] at hmem
    rcases hmem with ⟨h1, -⟩ | ⟨c0, hc0, rfl, -⟩ | h3
    · exact absurd h1 hne
    · exact absurd hc0 hcbk
    · exact h3
  · simp only [doBind, doBindO, doRebinding, canonical, hkal, hik,
      Option.isSome_some, if_true, make, makeBody, alookup_aremove_self,
      alookup_ainsert_self, hsb, List.getLast?_nil, runFactoryO,
      evalFactoryO, List.nil_append, List.dropLast_single,
      Bool.false_eq_true, if_false, fireAfterResolving, fireRebound]
    refine ⟨_, rfl, ?_⟩
    intro u hmem
    simp [alookup_ainsert_self, alookup_ainsert_ne, hak, Ne.symm hak] at hmem
    rcases hmem with ⟨h1, -⟩ | ⟨c0, hc0, rfl, -⟩ | h3
    · exact absurd h1 hne
    · exact absurd hc0 hcbk
    · exact h3

/-- Witness for `c10_rebinding_literal`: callbacks 0 and 1 are stored
under the literal names `"a"` and `"k"` respectively. -/
theorem c10_rebinding_literal_witness :
    alookup (doRebinding (doRebinding c10S "a" 0) "k" 1).reboundCallbacks "a"
      = some ((alookup c10S.reboundCallbacks "a").getD [] ++ [0])
    ∧ alookup (doRebinding (doRebinding c10S "a" 0) "k" 1).reboundCallbacks "k"
      = some ((alookup c10S.reboundCallbacks "k").getD [] ++ [1]) :=
  (c10_rebinding_literal c10S "a" "k" 0 1 (Val.base 2) (Val.base 1)
    (Ext.wrap 0) 0 (by decide) (by decide) (by decide) (by decide)
    (by decide) (by decide) (by decide) (by decide)).1

/-! ### C1: deferred provider Register runs exactly once -/

theorem alookup_nil {κ α : Type} [DecidableEq κ] (k : κ) :
    alookup ([] : List (κ × α)) k = none := rfl

theorem contains_cons_self (l : List Nat) (pid : Nat) :
    (pid :: l).contains pid = true := by
  simp [List.contains]

theorem getLast?_single (a : String) : [a].getLast? = some a := rfl

/-- C1: take a deferred provider `pid` with `Provides() = [k1, k2]`
(`k1 ≠ k2`) whose `Register` binds exactly its two provided keys (as the
`ServiceProvider.Provides` contract prescribes).  Registering it with the
Provider Registry runs NO `Register` (the count of `registerCalled pid`
events is unchanged); the first `Make(k1)` triggers the provider's
`Register` exactly once and yields `v1`; a subsequent independent
`Make(k2)` yields `v2` WITHOUT running `Register` again — the total count
stays at one. -/
theorem c1_deferred_register_once (s0 s1 sa sb : State) (pid : Nat)
    (k1 k2 : String) (v1 v2 w1 w2 : Val)
    (h12 : k1 ≠ k2)
    (hal : s0.aliases = [])
    (hctx : s0.contextual = [])
    (hprov : alookup s0.providers pid
      = some ⟨[k1, k2], true, [(k1, .const v1, true), (k2, .const v2, true)]⟩)
    (hreg : s0.registered.contains pid = false)
    (hi1 : alookup s0.instances k1 = none)
    (hi2 : alookup s0.instances k2 = none)
    (hx1 : alookup s0.extenders k1 = none)
    (hx2 : alookup s0.extenders k2 = none)
    (hbs : s0.buildStack = [])
    (hbooted : s0.booted = true)
    (hstep1 : registryRegister 1 s0 pid = .ok s1)
    (hstep2 : make 2 s1 k1 = Res.ok w1 sa)
    (hstep3 : make 2 sa k2 = Res.ok w2 sb) :
    countE (.registerCalled pid) s1.events = countE (.registerCalled pid) s0.events
    ∧ w1 = v1
    ∧ countE (.registerCalled pid) sa.events
        = countE (.registerCalled pid) s0.events + 1
    ∧ w2 = v2
    ∧ countE (.registerCalled pid) sb.events
        = countE (.registerCalled pid) s0.events + 1 := by
  simp only [registryRegister, hreg, Bool.false_eq_true, if_false, hprov,
    Option.getD_some, List.foldl_cons, List.foldl_nil, bindTriggers,
    doBind, doBindO, canonical, hal, alookup_nil, hi1, hi2,
    alookup_aremove_ne _ _ _ h12, alookup_aremove_self, Option.isSome_none,
    Bool.false_eq_true, if_true, BRes.ok.injEq] at hstep1
  subst hstep1
  simp [make, makeBody, canonical, alookup_nil, hbs, hi1, hi2, h12,
    Ne.symm h12, alookup_aremove_ne, alookup_aremove_self,
    alookup_ainsert_ne, alookup_ainsert_self, List.getLast?_nil,
    runFactoryO, evalFactoryO, hprov, Option.getD_some, contains_cons_self,
    Bool.not_true, Bool.false_or, Option.isSome_some, if_true, doRegOpsO,
    doBindO, Option.isSome_none, Bool.false_eq_true, if_false, hbooted,
    List.nil_append, getLast?_single, ctxLookup, hctx, hx1, hx2,
    Option.getD_none, applyExts, List.foldl_nil, List.dropLast_concat,
    List.dropLast_single, fireAfterResolving, fireRebound,
    Res.ok.injEq] at hstep2
  obtain ⟨hw1, hsa⟩ := hstep2
  subst hw1
  subst hsa
  simp [make, makeBody, canonical, alookup_nil, hbs, hi1, hi2, h12,
    Ne.symm h12, alookup_aremove_ne, alookup_aremove_self,
    alookup_ainsert_ne, alookup_ainsert_self, List.getLast?_nil,
    runFactoryO, evalFactoryO, List.nil_append, getLast?_single, ctxLookup,
    hx1, hx2, Option.getD_none, applyExts, List.foldl_nil,
    List.dropLast_concat, List.dropLast_single, fireAfterResolving,
    fireRebound, Res.ok.injEq] at hstep3
  obtain ⟨hw2, hsb⟩ := hstep3
  subst hw2
  subst hsb
  refine ⟨?_, rfl, ?_, rfl, ?_⟩
  · rfl
  · simp [countE, countE_append, countE_reverse, countE_map_ne]
    omega
  · simp [countE, countE_append, countE_reverse, countE_map_ne]
    omega

/-- Witness for `c1_deferred_register_once` on the concrete scenario. -/
theorem c1_deferred_register_once_witness :
    countE (.registerCalled 7) c1S1.events = countE (.registerCalled 7) c1S0.events
    ∧ countE (.registerCalled 7) c1SA.events
        = countE (.registerCalled 7) c1S0.events + 1
    ∧ countE (.registerCalled 7) c1SB.events
        = countE (.registerCalled 7) c1S0.events + 1 := by
  have h := c1_deferred_register_once c1S0 c1S1 c1SA c1SB 7 "a" "b"
    (Val.base 1) (Val.base 2) (Val.base 1) (Val.base 2)
    (by decide) (by decide) (by decide) (by decide) (by decide) (by decide)
    (by decide) (by decide) (by decide) (by decide) (by decide)
    (by decide) (by decide) (by decide)
  exact ⟨h.1, h.2.2.1, h.2.2.2.2⟩

end GoLaravel
